import Mathlib

/-!
Shallow embedding of `clusterlib/storage.py`: a key/value persistence helper
built on sqlite3 (one table `dict (key TEXT PRIMARY KEY, value BLOB)` per
file) and pickle (generic object serialization).

Modelling choices, mapped to the source:
* Python objects handled by pickle are modelled by the inductive `PyObj`;
  nested structure is provided by list cells (`pyListNil` / `pyListCons`),
  and `unpicklable` stands for an object `pickle.dumps` rejects.
* `pickle.dumps(value, protocol=...)` / `pickle.loads(bytes)` are modelled by
  an executable tagged byte encoding (`pickle_dumps` / `pickle_loads`),
  returning `none` on `PicklingError` / `UnpicklingError`.  The leading byte
  records the pickle protocol, as the real format does.
* A database file is `SqliteDB`: the schema of its single table (table name,
  column names) plus its rows, an association list `key ↦ blob` in insertion
  order (`key` is the primary key, modelled by lookup-first semantics).
* The filesystem is `FS`, an association list `path ↦ SqliteDB`;
  `os.path.exists fname` is `(lookupFS fs fname).isSome`.
* Each operation returns, besides its result, the filesystem after the call
  and a trace of connection events (`Event.acquire timeout` when
  `sqlite3.connect(fname, timeout=timeout)` takes the database,
  `Event.release` when the `with` block ends the transaction and releases the
  file lock, on both normal and exceptional exits).
* Python's `timeout=7200.0` default is the exact rational `7200`;
  `sqlite3_loads_default` / `sqlite3_dumps_default` embed a call in which the
  caller omits the timeout argument.
-/

/-- Model of a Python value that may be handed to pickle.  `pyListCons` /
`pyListNil` build nested lists, giving genuinely structured values;
`unpicklable` models an object that `pickle.dumps` raises on. -/
inductive PyObj where
  | pyNone
  | pyInt (i : Int)
  | pyStr (s : String)
  | pyListNil
  | pyListCons (hd tl : PyObj)
  | unpicklable (tag : Nat)
  deriving DecidableEq, Repr

/-- Injective coding of `Int` into `Nat` used by the pickle model. -/
def intCode : Int → Nat
  | Int.ofNat n => 2 * n
  | Int.negSucc n => 2 * n + 1

/-- Inverse of `intCode`. -/
def intDecode (n : Nat) : Int :=
  if n % 2 = 0 then Int.ofNat (n / 2) else Int.negSucc (n / 2)

/-- Byte payload of a pickled object, without the protocol byte.  `none`
models `pickle.PicklingError` (the value contains unpicklable state). -/
def encodeObj : PyObj → Option (List Nat)
  | PyObj.pyNone => some [0]
  | PyObj.pyInt i => some [1, intCode i]
  | PyObj.pyStr s => some (2 :: s.length :: s.data.map Char.toNat)
  | PyObj.pyListNil => some [3]
  | PyObj.pyListCons h t =>
    match encodeObj h, encodeObj t with
    | some eh, some et => some (4 :: (eh ++ et))
    | _, _ => none
  | PyObj.unpicklable _ => none

/-- Nesting depth of a value; a fuel bound for the decoder. -/
def pdepth : PyObj → Nat
  | PyObj.pyListCons h t => 1 + pdepth h + pdepth t
  | _ => 1

/-- Fuel-indexed decoder for `encodeObj`'s format: returns the decoded value
and the unconsumed bytes, or `none` on a malformed payload. -/
def decodeObj : Nat → List Nat → Option (PyObj × List Nat)
  | 0, _ => none
  | _ + 1, [] => none
  | fuel + 1, t :: bs =>
    if t = 0 then some (PyObj.pyNone, bs)
    else if t = 1 then
      match bs with
      | n :: rest => some (PyObj.pyInt (intDecode n), rest)
      | [] => none
    else if t = 2 then
      match bs with
      | n :: rest =>
        if n ≤ rest.length then
          some (PyObj.pyStr (String.mk ((rest.take n).map Char.ofNat)), rest.drop n)
        else none
      | [] => none
    else if t = 3 then some (PyObj.pyListNil, bs)
    else if t = 4 then
      match decodeObj fuel bs with
      | some (h, r1) =>
        match decodeObj fuel r1 with
        | some (tl, r2) => some (PyObj.pyListCons h tl, r2)
        | none => none
      | none => none
    else none

/-- `pickle.HIGHEST_PROTOCOL`: the highest protocol version available. -/
def HIGHEST_PROTOCOL : Nat := 5

/-- Model of `pickle.dumps(value, protocol=protocol)`: a protocol byte
followed by the payload; `none` models `pickle.PicklingError`. -/
def pickle_dumps (v : PyObj) (protocol : Nat) : Option (List Nat) :=
  (encodeObj v).map fun bs => protocol :: bs

/-- Model of `pickle.loads(bytes)`: strips the protocol byte and decodes the
payload; `none` models `pickle.UnpicklingError` on a corrupted payload. -/
def pickle_loads (bs : List Nat) : Option PyObj :=
  match bs with
  | [] => none
  | _ :: rest =>
    match decodeObj rest.length rest with
    | some (v, []) => some v
    | _ => none

/-- A sqlite database file as this module uses it: the schema of its single
table (created by `CREATE TABLE IF NOT EXISTS dict (key TEXT PRIMARY KEY,
value BLOB)`) and its rows in insertion order.  The primary key is modelled
by first-match lookup plus the duplicate check in `sqlite3_dumps`. -/
structure SqliteDB where
  table : String
  keyCol : String
  valueCol : String
  rows : List (String × List Nat)
  deriving DecidableEq, Repr

/-- The filesystem: an association list from path to database file. -/
abbrev FS := List (String × SqliteDB)

/-- `os.path.exists` / opening an existing file: look the path up. -/
def lookupFS (fs : FS) (fname : String) : Option SqliteDB := fs.lookup fname

/-- Writing a database file at a path (replace, or create at the end). -/
def updateFS : FS → String → SqliteDB → FS
  | [], fname, db => [(fname, db)]
  | (g, d) :: rest, fname, db =>
    if g = fname then (g, db) :: rest else (g, d) :: updateFS rest fname db

/-- Connection events: `acquire q` for `sqlite3.connect(fname, timeout=q)`,
`release` when the `with` block ends the transaction (commit or rollback)
and the file lock is dropped — on normal and exceptional exits alike. -/
inductive Event where
  | acquire (timeout : ℚ)
  | release
  deriving DecidableEq, Repr

/-- The `key` argument of `sqlite3_loads`: `str` for a plain string, `list`
for a list of keys. -/
inductive PyKey where
  | str (s : String)
  | list (ks : List String)
  deriving DecidableEq, Repr

/-- The `if isinstance(key, str): key = [key]` normalization. -/
def pyKeyList : PyKey → List String
  | PyKey.str s => [s]
  | PyKey.list ks => ks

/-- Return shape of `sqlite3_loads`: a bare value for a single requested key
(after the `if len(key) == 1: out = out[0]` ravel), else a list. -/
inductive LoadOut where
  | single (v : Option PyObj)
  | many (vs : List (Option PyObj))
  deriving DecidableEq, Repr

/-- Full outcome of a `sqlite3_loads` call: its return value (`none` models
an uncaught exception), the filesystem afterwards, and the connection
events. -/
structure LoadResult where
  result : Option LoadOut
  fs : FS
  trace : List Event
  deriving DecidableEq, Repr

/-- Exception behaviour of `sqlite3_dumps`: normal return, or
`pickle.PicklingError`, `sqlite3.IntegrityError` (duplicate primary key), or
`sqlite3.OperationalError` (schema mismatch in the SQL statements). -/
inductive DumpOutcome where
  | ok
  | picklingError
  | integrityError
  | operationalError
  deriving DecidableEq, Repr

/-- Full outcome of a `sqlite3_dumps` call. -/
structure DumpResult where
  outcome : DumpOutcome
  fs : FS
  trace : List Event
  deriving DecidableEq, Repr

/-- The SQL statements of the module name table `dict` and columns `key`,
`value`; they run without `sqlite3.OperationalError` exactly on files whose
table carries that schema. -/
def schemaOK (db : SqliteDB) : Bool :=
  db.table == "dict" && db.keyCol == "key" && db.valueCol == "value"

/-- One row of the `out` list: `fetchone()` gave `None` (key absent, kept as
`None`) or a blob, decoded by `pickle.loads`; `none` models an
`UnpicklingError` escaping the list comprehension. -/
def decodeRow : Option (List Nat) → Option (Option PyObj)
  | none => some none
  | some b =>
    match pickle_loads b with
    | none => none
    | some v => some (some v)

/-- The list comprehension
`[None if value is None else pickle.loads(bytes(value)) for value in out]`:
decode every fetched row, failing if any decode raises. -/
def seqDecode : List (Option (List Nat)) → Option (List (Option PyObj))
  | [] => some []
  | r :: rs =>
    match decodeRow r, seqDecode rs with
    | some v, some vs => some (v :: vs)
    | _, _ => none

/-- The final `if len(key) == 1: out = out[0]` of `sqlite3_loads`. -/
def ravel (keys : List String) (out : List (Option PyObj)) : LoadOut :=
  if keys.length = 1 then LoadOut.single out.headI else LoadOut.many out

/-- Embedding of `sqlite3_loads(fname, key, timeout)`:
normalize `key` to a list; if the file exists, connect (acquire), SELECT
each key in order collecting `None` or the blob, end the `with` block
(release), then decode each fetched blob; if the file does not exist,
return `None` for every key without connecting.  Finally ravel a
one-element result. -/
def sqlite3_loads (fs : FS) (fname : String) (key : PyKey) (timeout : ℚ) :
    LoadResult :=
  let keys := pyKeyList key
  match lookupFS fs fname with
  | some db =>
    if schemaOK db then
      match seqDecode (keys.map fun k => db.rows.lookup k) with
      | some out =>
        ⟨some (ravel keys out), fs, [Event.acquire timeout, Event.release]⟩
      | none => ⟨none, fs, [Event.acquire timeout, Event.release]⟩
    else ⟨none, fs, [Event.acquire timeout, Event.release]⟩
  | none => ⟨some (ravel keys (keys.map fun _ => none)), fs, []⟩

/-- The empty table made by
`CREATE TABLE IF NOT EXISTS dict (key TEXT PRIMARY KEY, value BLOB)`. -/
def emptyDictDB : SqliteDB := ⟨"dict", "key", "value", []⟩

/-- Embedding of `sqlite3_dumps(fname, key, value, timeout)`:
serialize first (`pickle.dumps(value, protocol=pickle.HIGHEST_PROTOCOL)`,
raising before any connection on unpicklable values); then connect
(creating the file when absent), create the table if needed, and INSERT,
which hits the primary-key constraint when `key` is already present; the
`with` block commits on success and rolls back on error, releasing the
lock either way. -/
def sqlite3_dumps (fs : FS) (fname : String) (key : String) (value : PyObj)
    (timeout : ℚ) : DumpResult :=
  match pickle_dumps value HIGHEST_PROTOCOL with
  | none => ⟨DumpOutcome.picklingError, fs, []⟩
  | some blob =>
    let db0 := match lookupFS fs fname with
      | none => emptyDictDB
      | some d => d
    if schemaOK db0 then
      if (db0.rows.lookup key).isSome then
        ⟨DumpOutcome.integrityError, fs, [Event.acquire timeout, Event.release]⟩
      else
        ⟨DumpOutcome.ok,
          updateFS fs fname ⟨db0.table, db0.keyCol, db0.valueCol,
            db0.rows ++ [(key, blob)]⟩,
          [Event.acquire timeout, Event.release]⟩
    else ⟨DumpOutcome.operationalError, fs,
      [Event.acquire timeout, Event.release]⟩

/-- The `timeout=7200.0` default of both functions, as an exact rational. -/
def DEFAULT_TIMEOUT : ℚ := 7200

/-- A `sqlite3_loads` call in which the caller omits `timeout`. -/
def sqlite3_loads_default (fs : FS) (fname : String) (key : PyKey) :
    LoadResult :=
  sqlite3_loads fs fname key DEFAULT_TIMEOUT

/-- A `sqlite3_dumps` call in which the caller omits `timeout`. -/
def sqlite3_dumps_default (fs : FS) (fname : String) (key : String)
    (value : PyObj) : DumpResult :=
  sqlite3_dumps fs fname key value DEFAULT_TIMEOUT

/-- The rows of the database at `fname`, empty when no file exists. -/
def dbRows (fs : FS) (fname : String) : List (String × List Nat) :=
  match lookupFS fs fname with
  | none => []
  | some db => db.rows

/-- States that `sqlite3_dumps fs fname key _` reaches its INSERT and does
not hit the primary-key constraint: either no file exists yet, or the file
has the module's schema and `key` is not yet present. -/
def insertOK (fs : FS) (fname key : String) : Bool :=
  match lookupFS fs fname with
  | none => true
  | some db => schemaOK db && (db.rows.lookup key).isNone

/-- Every blob stored in `rows` decodes: the store only ever holds payloads
written by `pickle.dumps`. -/
def wfRows (rows : List (String × List Nat)) : Bool :=
  rows.all fun e => (pickle_loads e.2).isSome

/-- True exactly when the trace acquires the store handle at most once and
releases it before the call returns: `[]`, or an acquire directly matched by
a release. -/
def handleBalanced : List Event → Bool
  | [] => true
  | [Event.acquire _, Event.release] => true
  | _ => false

/-- The result carries the absent-value marker `None` for every requested
key, raveled to a bare marker exactly for a one-key request. -/
def allAbsentFor (keys : List String) : LoadOut → Bool
  | LoadOut.single v => keys.length == 1 && v.isNone
  | LoadOut.many vs =>
    keys.length != 1 && vs.length == keys.length && vs.all Option.isNone

/-- The decoded value stored for `s` at `fname`: `none` when the file or the
key is absent (or the payload does not decode). -/
def storedValue (fs : FS) (fname s : String) : Option PyObj :=
  ((lookupFS fs fname).bind fun db => db.rows.lookup s).bind pickle_loads

/-- `sqlite3_loads fs fname (str s)` raises no exception: the file is absent,
or it has the module's schema and the payload at `s` (if any) decodes. -/
def loadKeyOK (fs : FS) (fname s : String) : Bool :=
  match lookupFS fs fname with
  | none => true
  | some db =>
    schemaOK db && ((db.rows.lookup s).all fun b => (pickle_loads b).isSome)

/-- A nested structured value, the model of `["x", [2]]`. -/
def sampleNested : PyObj :=
  PyObj.pyListCons (PyObj.pyStr "x")
    (PyObj.pyListCons (PyObj.pyListCons (PyObj.pyInt 2) PyObj.pyListNil)
      PyObj.pyListNil)

/-- The pickled payload of the string value `x`. -/
def xBlob : List Nat := (pickle_dumps (PyObj.pyStr "x") HIGHEST_PROTOCOL).getD []

/-- The pickled payload of the string value `y`. -/
def yBlob : List Nat := (pickle_dumps (PyObj.pyStr "y") HIGHEST_PROTOCOL).getD []

/-- A concrete store holding `a = "x"` and `b = "y"`. -/
def sampleDB : SqliteDB := ⟨"dict", "key", "value", [("a", xBlob), ("b", yBlob)]⟩

/-- A filesystem with the concrete store at `s.db`. -/
def sampleFS : FS := [("s.db", sampleDB)]

theorem intDecode_intCode (i : Int) : intDecode (intCode i) = i := by
  cases i with
  | ofNat n => simp [intCode, intDecode, Nat.mul_div_cancel_left, Nat.mul_mod_right]
  | negSucc n =>
    simp only [intCode, intDecode]
    have h2 : (2 * n + 1) % 2 = 1 := by omega
    have h3 : (2 * n + 1) / 2 = n := by omega
    simp [h2, h3]

theorem decodeObj_encodeObj (v : PyObj) : ∀ (e : List Nat), encodeObj v = some e →
    ∀ (fuel : Nat) (tail : List Nat), pdepth v ≤ fuel →
      decodeObj fuel (e ++ tail) = some (v, tail) := by
  induction v with
  | pyNone =>
    intro e he fuel tail hf
    simp only [encodeObj, Option.some.injEq] at he
    subst he
    match fuel, hf with
    | f + 1, _ => simp [decodeObj]
  | pyInt i =>
    intro e he fuel tail hf
    simp only [encodeObj, Option.some.injEq] at he
    subst he
    match fuel, hf with
    | f + 1, _ => simp [decodeObj, intDecode_intCode]
  | pyStr s =>
    intro e he fuel tail hf
    simp only [encodeObj, Option.some.injEq] at he
    subst he
    match fuel, hf with
    | f + 1, _ =>
      have hlen : s.length = (s.data.map Char.toNat).length := by
        rw [List.length_map]; rfl
      have hle : s.length ≤ (s.data.map Char.toNat ++ tail).length := by
        rw [List.length_append, ← hlen]; omega
      have htake : (s.data.map Char.toNat ++ tail).take s.length
          = s.data.map Char.toNat := by
        rw [hlen]; exact List.take_left _ _
      have hdrop : (s.data.map Char.toNat ++ tail).drop s.length = tail := by
        rw [hlen]; exact List.drop_left _ _
      have hco : Char.ofNat ∘ Char.toNat = id := funext fun c => Char.ofNat_toNat c
      simp [decodeObj, hle, htake, hdrop, List.map_map, hco]
  | pyListNil =>
    intro e he fuel tail hf
    simp only [encodeObj, Option.some.injEq] at he
    subst he
    match fuel, hf with
    | f + 1, _ => simp [decodeObj]
  | pyListCons h t ihh iht =>
    intro e he fuel tail hf
    rcases hh : encodeObj h with _ | eh
    · simp [encodeObj, hh] at he
    rcases ht : encodeObj t with _ | et
    · simp [encodeObj, hh, ht] at he
    simp only [encodeObj, hh, ht, Option.some.injEq] at he
    subst he
    simp only [pdepth] at hf
    cases fuel with
    | zero => omega
    | succ f =>
      have hfh : pdepth h ≤ f := by omega
      have hft : pdepth t ≤ f := by omega
      have h1 : decodeObj f (eh ++ (et ++ tail)) = some (h, et ++ tail) :=
        ihh eh hh f (et ++ tail) hfh
      have h2 : decodeObj f (et ++ tail) = some (t, tail) := iht et ht f tail hft
      simp [decodeObj, List.append_assoc, h1, h2]
  | unpicklable tag =>
    intro e he fuel tail hf
    simp [encodeObj] at he

theorem pdepth_le_encLength (v : PyObj) : ∀ (e : List Nat),
    encodeObj v = some e → pdepth v ≤ e.length := by
  induction v with
  | pyNone => intro e he; simp only [encodeObj, Option.some.injEq] at he; subst he; simp [pdepth]
  | pyInt i => intro e he; simp only [encodeObj, Option.some.injEq] at he; subst he; simp [pdepth]
  | pyStr s => intro e he; simp only [encodeObj, Option.some.injEq] at he; subst he; simp [pdepth]
  | pyListNil => intro e he; simp only [encodeObj, Option.some.injEq] at he; subst he; simp [pdepth]
  | pyListCons h t ihh iht =>
    intro e he
    rcases hh : encodeObj h with _ | eh
    · simp [encodeObj, hh] at he
    rcases ht : encodeObj t with _ | et
    · simp [encodeObj, hh, ht] at he
    simp only [encodeObj, hh, ht, Option.some.injEq] at he
    subst he
    have h1 := ihh eh hh
    have h2 := iht et ht
    simp only [pdepth, List.length_cons, List.length_append]
    omega
  | unpicklable tag =>
    intro e he
    simp [encodeObj] at he

theorem pickle_roundtrip (v : PyObj) (p : Nat) (b : List Nat)
    (h : pickle_dumps v p = some b) : pickle_loads b = some v := by
  rcases he : encodeObj v with _ | e
  · simp [pickle_dumps, he] at h
  have hb : p :: e = b := by simpa [pickle_dumps, he] using h
  subst hb
  have hd : decodeObj e.length (e ++ []) = some (v, []) :=
    decodeObj_encodeObj v e he e.length [] (pdepth_le_encLength v e he)
  rw [List.append_nil] at hd
  simp [pickle_loads, hd]

theorem lookupFS_updateFS (fs : FS) (fname : String) (db : SqliteDB) :
    lookupFS (updateFS fs fname db) fname = some db := by
  induction fs with
  | nil => simp [updateFS, lookupFS, List.lookup]
  | cons e rest ih =>
    obtain ⟨g, d⟩ := e
    by_cases h : g = fname
    · subst h; simp [updateFS, lookupFS, List.lookup]
    · have h' : (fname == g) = false := beq_eq_false_iff_ne.mpr fun he => h he.symm
      simpa [updateFS, lookupFS, List.lookup, h, h'] using ih

theorem lookup_append_singleton (rows : List (String × List Nat))
    (key : String) (blob : List Nat) (h : rows.lookup key = none) :
    (rows ++ [(key, blob)]).lookup key = some blob := by
  rw [List.lookup_append, h]
  simp [List.lookup]

theorem schemaOK_fields (db : SqliteDB) (h : schemaOK db = true) :
    db.table = "dict" ∧ db.keyCol = "key" ∧ db.valueCol = "value" := by
  simpa [schemaOK, Bool.and_eq_true, and_assoc] using h

theorem sqlite3_dumps_ok (fs : FS) (fname key : String) (v : PyObj) (t : ℚ)
    (blob : List Nat) (hb : pickle_dumps v HIGHEST_PROTOCOL = some blob)
    (hok : insertOK fs fname key = true) :
    sqlite3_dumps fs fname key v t =
      ⟨DumpOutcome.ok,
        updateFS fs fname
          ⟨"dict", "key", "value", dbRows fs fname ++ [(key, blob)]⟩,
        [Event.acquire t, Event.release]⟩ := by
  rcases hfs : lookupFS fs fname with _ | db
  · simp [sqlite3_dumps, hb, hfs, dbRows, emptyDictDB, schemaOK, List.lookup]
  · have hok' : schemaOK db = true ∧ (db.rows.lookup key).isNone = true := by
      simpa [insertOK, hfs, Bool.and_eq_true] using hok
    obtain ⟨hs, hn⟩ := hok'
    obtain ⟨h1, h2, h3⟩ := schemaOK_fields db hs
    have hnone : db.rows.lookup key = none := Option.isNone_iff_eq_none.mp hn
    simp [sqlite3_dumps, hb, hfs, hs, hnone, dbRows, h1, h2, h3]

theorem sqlite3_dumps_dup (fs : FS) (fname key : String) (v : PyObj) (t : ℚ)
    (db : SqliteDB) (hfs : lookupFS fs fname = some db)
    (hs : schemaOK db = true) (hk : (db.rows.lookup key).isSome = true)
    (hv : (pickle_dumps v HIGHEST_PROTOCOL).isSome = true) :
    sqlite3_dumps fs fname key v t =
      ⟨DumpOutcome.integrityError, fs, [Event.acquire t, Event.release]⟩ := by
  obtain ⟨blob, hb⟩ := Option.isSome_iff_exists.mp hv
  simp [sqlite3_dumps, hb, hfs, hs, hk]

theorem sqlite3_loads_single_some (fs : FS) (fname s : String) (t : ℚ)
    (db : SqliteDB) (blob : List Nat) (v : PyObj)
    (hfs : lookupFS fs fname = some db) (hs : schemaOK db = true)
    (hl : db.rows.lookup s = some blob) (hv : pickle_loads blob = some v) :
    sqlite3_loads fs fname (PyKey.str s) t =
      ⟨some (LoadOut.single (some v)), fs, [Event.acquire t, Event.release]⟩ := by
  simp [sqlite3_loads, pyKeyList, hfs, hs, seqDecode, decodeRow, hl, hv, ravel]

theorem wfRows_lookup (rows : List (String × List Nat)) (k : String)
    (b : List Nat) (hw : wfRows rows = true) (hl : rows.lookup k = some b) :
    (pickle_loads b).isSome = true := by
  induction rows with
  | nil => simp [List.lookup] at hl
  | cons e rest ih =>
    obtain ⟨a, c⟩ := e
    have hw' : (pickle_loads c).isSome = true ∧ wfRows rest = true := by
      simpa [wfRows, List.all_cons, Bool.and_eq_true] using hw
    cases hak : (k == a)
    · rw [List.lookup] at hl
      rw [hak] at hl
      exact ih hw'.2 hl
    · rw [List.lookup] at hl
      rw [hak] at hl
      have hcb : c = b := by injection hl
      exact hcb ▸ hw'.1

theorem seqDecode_lookup (rows : List (String × List Nat))
    (hw : wfRows rows = true) (ks : List String) :
    seqDecode (ks.map fun k => rows.lookup k)
      = some (ks.map fun k => (rows.lookup k).bind pickle_loads) := by
  induction ks with
  | nil => simp [seqDecode]
  | cons k ks ih =>
    rcases hl : rows.lookup k with _ | b
    · simp [seqDecode, decodeRow, hl, ih]
    · have hv := wfRows_lookup rows k b hw hl
      obtain ⟨v, hv'⟩ := Option.isSome_iff_exists.mp hv
      simp [seqDecode, decodeRow, hl, hv', ih]

theorem loads_trace_shape (fs : FS) (fname : String) (key : PyKey) (t : ℚ) :
    (sqlite3_loads fs fname key t).trace = [] ∨
    (sqlite3_loads fs fname key t).trace
      = [Event.acquire t, Event.release] := by
  rcases hfs : lookupFS fs fname with _ | db
  · left; simp [sqlite3_loads, hfs]
  · right
    cases hs : schemaOK db
    · simp [sqlite3_loads, hfs, hs]
    · rcases hsd : seqDecode ((pyKeyList key).map fun k => db.rows.lookup k)
        with _ | out
      · simp [sqlite3_loads, hfs, hs, hsd]
      · simp [sqlite3_loads, hfs, hs, hsd]

theorem dumps_trace_shape (fs : FS) (fname key : String) (v : PyObj)
    (t : ℚ) :
    (sqlite3_dumps fs fname key v t).trace = [] ∨
    (sqlite3_dumps fs fname key v t).trace
      = [Event.acquire t, Event.release] := by
  rcases hb : pickle_dumps v HIGHEST_PROTOCOL with _ | blob
  · left; simp [sqlite3_dumps, hb]
  · right
    rcases hfs : lookupFS fs fname with _ | db
    · simp [sqlite3_dumps, hb, hfs, emptyDictDB, schemaOK, List.lookup]
    · cases hs : schemaOK db
      · simp [sqlite3_dumps, hb, hfs, hs]
      · cases hk : (db.rows.lookup key).isSome
        · simp [sqlite3_dumps, hb, hfs, hs, hk]
        · simp [sqlite3_dumps, hb, hfs, hs, hk]

/-- `insertOK` implies the key is absent from the rows at `fname`. -/
theorem insertOK_dbRows (fs : FS) (fname key : String)
    (h : insertOK fs fname key = true) :
    (dbRows fs fname).lookup key = none := by
  rcases hfs : lookupFS fs fname with _ | db
  · simp [dbRows, hfs, List.lookup]
  · have h' : schemaOK db = true ∧ (db.rows.lookup key).isNone = true := by
      simpa [insertOK, hfs, Bool.and_eq_true] using h
    simp [dbRows, hfs, Option.isNone_iff_eq_none.mp h'.2]

/-- C1: storing `(key, value)` where `key` is absent and then loading `key`
returns a value equal to the original `value`, also for nested structured
values. -/
theorem spec_c1 (fs : FS) (fname key : String) (v : PyObj) (t t' : ℚ)
    (h1 : (pickle_dumps v HIGHEST_PROTOCOL).isSome = true)
    (h2 : insertOK fs fname key = true) :
    (sqlite3_dumps fs fname key v t).outcome = DumpOutcome.ok ∧
    (sqlite3_loads (sqlite3_dumps fs fname key v t).fs fname
        (PyKey.str key) t').result = some (LoadOut.single (some v)) := by
  obtain ⟨blob, hb⟩ := Option.isSome_iff_exists.mp h1
  have hdump := sqlite3_dumps_ok fs fname key v t blob hb h2
  have hfs1 : (sqlite3_dumps fs fname key v t).fs
      = updateFS fs fname
          ⟨"dict", "key", "value", dbRows fs fname ++ [(key, blob)]⟩ := by
    rw [hdump]
  set db1 : SqliteDB :=
    ⟨"dict", "key", "value", dbRows fs fname ++ [(key, blob)]⟩ with hdb1
  have hlook1 : lookupFS (updateFS fs fname db1) fname = some db1 :=
    lookupFS_updateFS _ _ _
  have hs1 : schemaOK db1 = true := by simp [hdb1, schemaOK]
  have hlookkey : db1.rows.lookup key = some blob := by
    rw [hdb1]
    exact lookup_append_singleton _ _ _ (insertOK_dbRows fs fname key h2)
  have hv : pickle_loads blob = some v := pickle_roundtrip v HIGHEST_PROTOCOL blob hb
  have hload := sqlite3_loads_single_some (updateFS fs fname db1) fname key t'
    db1 blob v hlook1 hs1 hlookkey hv
  refine ⟨by rw [hdump], ?_⟩
  rw [hfs1, hload]

/-- C2: a second store of a key already present fails with the duplicate-key
error (`sqlite3.IntegrityError`), leaves the store unchanged, and the first
inserted value remains retrievable by load. -/
theorem spec_c2 (fs : FS) (fname key : String) (v1 v2 : PyObj)
    (t1 t2 t3 : ℚ)
    (h1 : (pickle_dumps v1 HIGHEST_PROTOCOL).isSome = true)
    (h2 : (pickle_dumps v2 HIGHEST_PROTOCOL).isSome = true)
    (h3 : insertOK fs fname key = true) :
    (sqlite3_dumps (sqlite3_dumps fs fname key v1 t1).fs fname key v2
        t2).outcome = DumpOutcome.integrityError ∧
    (sqlite3_dumps (sqlite3_dumps fs fname key v1 t1).fs fname key v2 t2).fs
      = (sqlite3_dumps fs fname key v1 t1).fs ∧
    (sqlite3_loads
        (sqlite3_dumps (sqlite3_dumps fs fname key v1 t1).fs fname key v2
          t2).fs fname (PyKey.str key) t3).result
      = some (LoadOut.single (some v1)) := by
  obtain ⟨blob1, hb1⟩ := Option.isSome_iff_exists.mp h1
  have hdump1 := sqlite3_dumps_ok fs fname key v1 t1 blob1 hb1 h3
  have hfs1 : (sqlite3_dumps fs fname key v1 t1).fs
      = updateFS fs fname
          ⟨"dict", "key", "value", dbRows fs fname ++ [(key, blob1)]⟩ := by
    rw [hdump1]
  set db1 : SqliteDB :=
    ⟨"dict", "key", "value", dbRows fs fname ++ [(key, blob1)]⟩ with hdb1
  have hlook1 : lookupFS (updateFS fs fname db1) fname = some db1 :=
    lookupFS_updateFS _ _ _
  have hs1 : schemaOK db1 = true := by simp [hdb1, schemaOK]
  have hlookkey : db1.rows.lookup key = some blob1 := by
    rw [hdb1]
    exact lookup_append_singleton _ _ _ (insertOK_dbRows fs fname key h3)
  have hdup := sqlite3_dumps_dup (updateFS fs fname db1) fname key v2 t2 db1
    hlook1 hs1 (by rw [hlookkey]; rfl) h2
  have hv1 : pickle_loads blob1 = some v1 :=
    pickle_roundtrip v1 HIGHEST_PROTOCOL blob1 hb1
  have hload := sqlite3_loads_single_some (updateFS fs fname db1) fname key
    t3 db1 blob1 v1 hlook1 hs1 hlookkey hv1
  refine ⟨?_, ?_, ?_⟩
  · rw [hfs1, hdup]
  · rw [hfs1, hdup]
  · rw [hfs1, hdup]
    simpa using congrArg LoadResult.result hload

/-- C3: on an existing well-formed store, loading a list of two or more keys
returns a list in exactly the input key order, with the stored value at each
present position and `None` at each absent position. -/
theorem spec_c3 (fs : FS) (fname : String) (ks : List String) (t : ℚ)
    (db : SqliteDB) (hfs : lookupFS fs fname = some db)
    (hs : schemaOK db = true) (hw : wfRows db.rows = true)
    (hk : 2 ≤ ks.length) :
    (sqlite3_loads fs fname (PyKey.list ks) t).result
      = some (LoadOut.many
          (ks.map fun k => (db.rows.lookup k).bind pickle_loads)) := by
  have hne : ks.length ≠ 1 := by omega
  simp [sqlite3_loads, pyKeyList, hfs, hs, seqDecode_lookup db.rows hw ks,
    ravel, hne]

/-- C4: loading any key or key list from a path with no store file returns
the absent marker for every key, does not create a file, and never connects
to the database. -/
theorem spec_c4 (fs : FS) (fname : String) (key : PyKey) (t : ℚ)
    (h : lookupFS fs fname = none) :
    (sqlite3_loads fs fname key t).fs = fs ∧
    (sqlite3_loads fs fname key t).trace = [] ∧
    ∃ out, (sqlite3_loads fs fname key t).result = some out ∧
      allAbsentFor (pyKeyList key) out = true := by
  refine ⟨by simp [sqlite3_loads, h], by simp [sqlite3_loads, h],
    ravel (pyKeyList key) ((pyKeyList key).map fun _ => none),
    by simp [sqlite3_loads, h], ?_⟩
  by_cases h1 : (pyKeyList key).length = 1
  · obtain ⟨a, ha⟩ := List.length_eq_one.mp h1
    rw [ha]
    simp [ravel, allAbsentFor]
  · simp [ravel, allAbsentFor, h1]

/-- C5: a load of a single key passed as a plain string returns the bare
corresponding value (or absent marker), not a one-element list. -/
theorem spec_c5 (fs : FS) (fname s : String) (t : ℚ)
    (h : loadKeyOK fs fname s = true) :
    (sqlite3_loads fs fname (PyKey.str s) t).result
      = some (LoadOut.single (storedValue fs fname s)) := by
  rcases hfs : lookupFS fs fname with _ | db
  · simp [sqlite3_loads, pyKeyList, hfs, ravel, storedValue]
  · have h' : schemaOK db = true ∧
        ((db.rows.lookup s).all fun b => (pickle_loads b).isSome) = true := by
      simpa [loadKeyOK, hfs, Bool.and_eq_true] using h
    obtain ⟨hs, hall⟩ := h'
    rcases hl : db.rows.lookup s with _ | b
    · simp [sqlite3_loads, pyKeyList, hfs, hs, seqDecode, decodeRow, hl,
        ravel, storedValue]
    · have hb : (pickle_loads b).isSome = true := by
        simpa [hl] using hall
      obtain ⟨v, hv⟩ := Option.isSome_iff_exists.mp hb
      simp [sqlite3_loads, pyKeyList, hfs, hs, seqDecode, decodeRow, hl, hv,
        ravel, storedValue]

/-- C6: a successful store serializes at the highest protocol, creates the
file and the table `dict` with columns `key` (text primary key) and `value`
(blob) when absent, and inserts the record. -/
theorem spec_c6 (fs : FS) (fname key : String) (v : PyObj) (t : ℚ)
    (blob : List Nat) (h1 : pickle_dumps v HIGHEST_PROTOCOL = some blob)
    (h2 : insertOK fs fname key = true) :
    (sqlite3_dumps fs fname key v t).outcome = DumpOutcome.ok ∧
    ∃ db, lookupFS (sqlite3_dumps fs fname key v t).fs fname = some db ∧
      db.table = "dict" ∧ db.keyCol = "key" ∧ db.valueCol = "value" ∧
      db.rows.lookup key = some blob := by
  have hdump := sqlite3_dumps_ok fs fname key v t blob h1 h2
  refine ⟨by rw [hdump],
    ⟨"dict", "key", "value", dbRows fs fname ++ [(key, blob)]⟩, ?_, rfl,
    rfl, rfl, ?_⟩
  · rw [hdump]
    exact lookupFS_updateFS _ _ _
  · exact lookup_append_singleton _ _ _ (insertOK_dbRows fs fname key h2)

/-- C7: on every execution path of load and store — including decode and
encode failures — the store handle acquired by the call is released before
the call returns; no path leaves the store locked. -/
theorem spec_c7 (fs : FS) (fname : String) (key : PyKey) (kk : String)
    (v : PyObj) (t t' : ℚ) :
    handleBalanced (sqlite3_loads fs fname key t).trace = true ∧
    handleBalanced (sqlite3_dumps fs fname kk v t').trace = true := by
  constructor
  · rcases loads_trace_shape fs fname key t with h | h <;> rw [h] <;> rfl
  · rcases dumps_trace_shape fs fname kk v t' with h | h <;> rw [h] <;> rfl

/-- C8: when the caller omits `timeout`, both load and store use a timeout
of 7200 seconds, and any connection they make is acquired with that
timeout. -/
theorem spec_c8 (fs : FS) (fname : String) (key : PyKey) (kk : String)
    (v : PyObj) :
    sqlite3_loads_default fs fname key = sqlite3_loads fs fname key 7200 ∧
    sqlite3_dumps_default fs fname kk v
      = sqlite3_dumps fs fname kk v 7200 ∧
    ((sqlite3_loads_default fs fname key).trace = [] ∨
      (sqlite3_loads_default fs fname key).trace
        = [Event.acquire 7200, Event.release]) ∧
    ((sqlite3_dumps_default fs fname kk v).trace = [] ∨
      (sqlite3_dumps_default fs fname kk v).trace
        = [Event.acquire 7200, Event.release]) := by
  refine ⟨rfl, rfl, ?_, ?_⟩
  · exact loads_trace_shape fs fname key 7200
  · exact dumps_trace_shape fs fname kk v 7200

/-- C9: a one-element list of keys is raveled exactly like a plain string
key: the un-wrapping is decided by `len(key) == 1`, not by the argument's
type. -/
theorem spec_c9 (fs : FS) (fname s : String) (t : ℚ) :
    sqlite3_loads fs fname (PyKey.list [s]) t
      = sqlite3_loads fs fname (PyKey.str s) t := rfl

/-- C10: store serializes before connecting, so on a non-serializable value
it raises `PicklingError` without touching the filesystem and without ever
acquiring the store. -/
theorem spec_c10 (fs : FS) (fname key : String) (v : PyObj) (t : ℚ)
    (h : pickle_dumps v HIGHEST_PROTOCOL = none) :
    sqlite3_dumps fs fname key v t
      = ⟨DumpOutcome.picklingError, fs, []⟩ := by
  simp [sqlite3_dumps, h]

theorem spec_c1_witness :
    (pickle_dumps sampleNested HIGHEST_PROTOCOL).isSome = true ∧
    insertOK [] "store.db" "job" = true ∧
    ((sqlite3_dumps [] "store.db" "job" sampleNested 7200).outcome
        = DumpOutcome.ok ∧
      (sqlite3_loads (sqlite3_dumps [] "store.db" "job" sampleNested 7200).fs
          "store.db" (PyKey.str "job") 7200).result
        = some (LoadOut.single (some sampleNested))) :=
  ⟨by decide, by decide,
    spec_c1 [] "store.db" "job" sampleNested 7200 7200 (by decide) (by decide)⟩

theorem spec_c2_witness :
    (pickle_dumps (PyObj.pyInt 1) HIGHEST_PROTOCOL).isSome = true ∧
    (pickle_dumps (PyObj.pyStr "y") HIGHEST_PROTOCOL).isSome = true ∧
    insertOK [] "s.db" "k" = true ∧
    ((sqlite3_dumps (sqlite3_dumps [] "s.db" "k" (PyObj.pyInt 1) 7200).fs
        "s.db" "k" (PyObj.pyStr "y") 7200).outcome
        = DumpOutcome.integrityError ∧
      (sqlite3_dumps (sqlite3_dumps [] "s.db" "k" (PyObj.pyInt 1) 7200).fs
          "s.db" "k" (PyObj.pyStr "y") 7200).fs
        = (sqlite3_dumps [] "s.db" "k" (PyObj.pyInt 1) 7200).fs ∧
      (sqlite3_loads
          (sqlite3_dumps (sqlite3_dumps [] "s.db" "k" (PyObj.pyInt 1) 7200).fs
            "s.db" "k" (PyObj.pyStr "y") 7200).fs "s.db" (PyKey.str "k")
          7200).result
        = some (LoadOut.single (some (PyObj.pyInt 1)))) :=
  ⟨by decide, by decide, by decide,
    spec_c2 [] "s.db" "k" (PyObj.pyInt 1) (PyObj.pyStr "y") 7200 7200 7200
      (by decide) (by decide) (by decide)⟩

theorem spec_c3_witness :
    lookupFS sampleFS "s.db" = some sampleDB ∧
    schemaOK sampleDB = true ∧
    wfRows sampleDB.rows = true ∧
    2 ≤ (["a", "missing", "b"] : List String).length ∧
    (sqlite3_loads sampleFS "s.db" (PyKey.list ["a", "missing", "b"])
        7200).result
      = some (LoadOut.many ((["a", "missing", "b"] : List String).map
          fun k => (sampleDB.rows.lookup k).bind pickle_loads)) :=
  ⟨by decide, by decide, by decide, by decide,
    spec_c3 sampleFS "s.db" ["a", "missing", "b"] 7200 sampleDB (by decide)
      (by decide) (by decide) (by decide)⟩

theorem spec_c4_witness :
    lookupFS [] "nofile.db" = none ∧
    ((sqlite3_loads [] "nofile.db" (PyKey.list ["a", "b"]) 7200).fs = [] ∧
      (sqlite3_loads [] "nofile.db" (PyKey.list ["a", "b"]) 7200).trace
        = [] ∧
      ∃ out,
        (sqlite3_loads [] "nofile.db" (PyKey.list ["a", "b"]) 7200).result
          = some out ∧
        allAbsentFor (pyKeyList (PyKey.list ["a", "b"])) out = true) :=
  ⟨rfl, spec_c4 [] "nofile.db" (PyKey.list ["a", "b"]) 7200 rfl⟩

theorem spec_c5_witness :
    loadKeyOK sampleFS "s.db" "a" = true ∧
    (sqlite3_loads sampleFS "s.db" (PyKey.str "a") 7200).result
      = some (LoadOut.single (storedValue sampleFS "s.db" "a")) :=
  ⟨by decide, spec_c5 sampleFS "s.db" "a" 7200 (by decide)⟩

theorem spec_c6_witness :
    pickle_dumps (PyObj.pyInt 3) HIGHEST_PROTOCOL
      = some ((pickle_dumps (PyObj.pyInt 3) HIGHEST_PROTOCOL).getD []) ∧
    insertOK [] "new.db" "k" = true ∧
    ((sqlite3_dumps [] "new.db" "k" (PyObj.pyInt 3) 7200).outcome
        = DumpOutcome.ok ∧
      ∃ db,
        lookupFS (sqlite3_dumps [] "new.db" "k" (PyObj.pyInt 3) 7200).fs
            "new.db" = some db ∧
        db.table = "dict" ∧ db.keyCol = "key" ∧ db.valueCol = "value" ∧
        db.rows.lookup "k"
          = some ((pickle_dumps (PyObj.pyInt 3) HIGHEST_PROTOCOL).getD [])) :=
  ⟨by decide, by decide,
    spec_c6 [] "new.db" "k" (PyObj.pyInt 3) 7200
      ((pickle_dumps (PyObj.pyInt 3) HIGHEST_PROTOCOL).getD []) (by decide)
      (by decide)⟩

theorem spec_c10_witness :
    pickle_dumps (PyObj.unpicklable 0) HIGHEST_PROTOCOL = none ∧
    sqlite3_dumps [] "f.db" "k" (PyObj.unpicklable 0) 7200
      = ⟨DumpOutcome.picklingError, [], []⟩ :=
  ⟨rfl, spec_c10 [] "f.db" "k" (PyObj.unpicklable 0) 7200 rfl⟩
